import Mathlib

/-
Verification of the dnsproxy runner (main.go) against its design spec.

The embedding is shallow: each Go function relevant to the claims is
translated to a Lean definition, loops become structural recursion, the
external DNS exchange and JSON parsing are abstracted as oracle arguments,
and durations are integer nanoseconds.
-/

namespace DnsProxy

/-- A forwarding destination (main.go:21-24). -/
structure destination where
  name : String
  address : String
deriving DecidableEq, Repr

/-- An entry of the static destination list in the config (main.go:32-35). -/
structure staticEntry where
  name : String
  address : String
deriving DecidableEq, Repr

/-- The configuration struct (main.go:26-45), flattened. Durations are
integer nanoseconds, as in Go's time.Duration. Note the struct carries a
forward port, static list, admin port/token and health-check period/domain,
and no idle-timeout field. -/
structure Config where
  logLevel : String
  forwardPort : Int
  forwardStatic : List staticEntry
  adminPort : Int
  adminToken : String
  healthCheckPeriod : Int
  healthCheckDomain : String
deriving DecidableEq, Repr

/-- Options passed to the forwarder, mirroring the forward.Option values
built in main.go (WithTimeout at line 102, the two callbacks at lines
103-108, WithDestination at lines 128-131, 164-168 and 244-248). -/
inductive ForwardOption where
  | withTimeout (nanos : Int)
  | withConnectCallback
  | withDisconnectCallback
  | withDestination (name addr : String)
deriving DecidableEq, Repr

/-- Loading of the static destination list (main.go:111-124): an entry with
an empty name or an empty address is skipped and one warning is logged
(main.go:113-117); every other entry is appended as a destination in order
(main.go:118-122). Returns the destinations together with the number of
warnings logged. -/
def loadStatic : List staticEntry → List destination × Nat
  | [] => ([], 0)
  | e :: rest =>
    let p := loadStatic rest
    if e.name == "" || e.address == "" then (p.1, p.2 + 1)
    else (⟨e.name, e.address⟩ :: p.1, p.2)

/-- The option list built at the start of Run (main.go:101-109) followed by
one WithDestination per loaded destination (main.go:126-132). The timeout at
main.go:102 is the literal 30 * time.Second, taken from no field of cfg. -/
def runOpts (_cfg : Config) (dests : List destination) : List ForwardOption :=
  [ForwardOption.withTimeout (30 * 1000000000),
   ForwardOption.withConnectCallback,
   ForwardOption.withDisconnectCallback]
  ++ dests.map (fun d => ForwardOption.withDestination d.name d.address)

/-- The first WithTimeout value among an option list: the idle timeout the
forwarder ends up configured with. -/
def firstTimeout : List ForwardOption → Option Int
  | [] => none
  | ForwardOption.withTimeout t :: _ => some t
  | _ :: rest => firstTimeout rest

/-- The options built from an admin-pushed proposal (main.go:162-169): one
WithDestination per entry of the proposal, with no per-entry validation or
skipping. -/
def updateOpts (ps : List destination) : List ForwardOption :=
  ps.map (fun d => ForwardOption.withDestination d.name d.address)

/-- The destinations carried by an option list, in order. -/
def optsDestinations : List ForwardOption → List destination
  | [] => []
  | ForwardOption.withDestination n a :: rest => ⟨n, a⟩ :: optsDestinations rest
  | _ :: rest => optsDestinations rest

/-- Abstract outcome of the dns client.Exchange call (main.go:275): either a
transport error (including timeouts) carrying a message, or a reply carrying
the number of records in reply.Answer. -/
inductive ExchangeResult where
  | err (msg : String)
  | reply (answers : Nat)
deriving DecidableEq, Repr

/-- The 15-second timeout of the context created in checkDNS
(main.go:262), in nanoseconds. -/
def probeTimeout : Int := 15 * 1000000000

/-- checkDNS (main.go:259-285). The exchange oracle maps the queried domain
and the destination address to the exchange outcome. The timeoutNanos
argument models the timeout context created at main.go:262: the code never
passes that context to client.Exchange (which takes no context), so the
exchange outcome is obtained from the oracle independently of it. Returns
none on success and the error message on failure, as at main.go:276-284. -/
def checkDNS (ex : String → String → ExchangeResult) (domain : String)
    (_timeoutNanos : Int) (d : destination) : Option String :=
  match ex domain d.address with
  | ExchangeResult.err e =>
      some ("error querying DNS " ++ d.address ++ ": " ++ e)
  | ExchangeResult.reply n =>
      if n = 0 then some ("no answer received from DNS " ++ d.address)
      else none

/-- The healthy list accumulated by one health-check tick (main.go:232-240):
destinations of the probed list whose checkDNS call returns no error, kept
in order. -/
def healthyOf (ex : String → String → ExchangeResult) (domain : String) :
    List destination → List destination
  | [] => []
  | d :: rest =>
    match checkDNS ex domain probeTimeout d with
    | some _ => healthyOf ex domain rest
    | none => d :: healthyOf ex domain rest

/-- What a health-check tick submits to the forwarder (main.go:242-250):
f.Update is called unconditionally, with one WithDestination per healthy
destination; some l means Update was called carrying the destination list l
(never none: there is no branch that skips the call). -/
def tickSubmission (ex : String → String → ExchangeResult) (domain : String)
    (dsts : List destination) : Option (List destination) :=
  some (healthyOf ex domain dsts)

/-- The runner's mutable state: r.destinations (main.go:49, written only by
the static-config loop at main.go:111-124) and the forwarder's committed
destination set. The committed side abstracts the external forwarder:
per the spec (section 4.5) an Update commit fully replaces the set. -/
structure RunnerState where
  destinations : List destination
  committed : List destination
deriving DecidableEq, Repr

/-- Effect of one admin proposal received in Run's select loop
(main.go:160-175): the proposal is turned into options and committed to the
forwarder via Update; r.destinations is not written. -/
def applyAdmin (s : RunnerState) (ps : List destination) : RunnerState :=
  { s with committed := optsDestinations (updateOpts ps) }

/-- The list a health-check tick iterates over and probes (main.go:233):
r.destinations. -/
def probedOnTick (s : RunnerState) : List destination :=
  s.destinations

/-- Effect of one health-check tick (main.go:231-254): the healthy subset of
r.destinations is committed to the forwarder via Update. -/
def applyHealthTick (domain : String) (ex : String → String → ExchangeResult)
    (s : RunnerState) : RunnerState :=
  { s with committed := healthyOf ex domain s.destinations }

/-- Events consumed by the runner after startup. -/
inductive Event where
  | adminProposal (ps : List destination)
  | healthTick (ex : String → String → ExchangeResult)
  | ctxDone

/-- Whether an event is a health-check tick. -/
def isTick : Event → Bool
  | Event.healthTick _ => true
  | _ => false

/-- One step of the runner on an event. A ctx.Done arrival changes no state
(main.go:159 has an empty case body). -/
def stepEvent (domain : String) (s : RunnerState) : Event → RunnerState
  | Event.adminProposal ps => applyAdmin s ps
  | Event.healthTick ex => applyHealthTick domain ex s
  | Event.ctxDone => s

/-- The runner state after a sequence of events. -/
def runTrace (domain : String) (s : RunnerState) (evs : List Event) : RunnerState :=
  evs.foldl (stepEvent domain) s

/-- The payloads of the admin proposals in an event list, in order. -/
def proposalsOf : List Event → List (List destination)
  | [] => []
  | Event.adminProposal ps :: rest => ps :: proposalsOf rest
  | _ :: rest => proposalsOf rest

/-- Whether the health-check goroutine is started (main.go:148): only when
the configured period is strictly positive. -/
def healthCheckEnabled (cfg : Config) : Bool :=
  cfg.healthCheckPeriod > 0

/-- What a select-loop body does with control after handling a case. -/
inductive LoopCtl where
  | cont
  | ret
deriving DecidableEq, Repr

/-- Events arriving at Run's select loop (main.go:157-177). -/
inductive RunEvent where
  | ctxDone
  | proposal (ps : List destination)

/-- Events arriving at healthCheck's select loop (main.go:227-256). -/
inductive HCEvent where
  | ctxDone
  | tick

/-- Control flow of Run's select-loop body (main.go:157-177): the ctx.Done
case at main.go:159 has an empty body and no return statement, so the for
loop continues; the proposal case applies the update and also continues. -/
def runLoopCtl : RunEvent → LoopCtl
  | RunEvent.ctxDone => LoopCtl.cont
  | RunEvent.proposal _ => LoopCtl.cont

/-- Control flow of healthCheck's select-loop body (main.go:227-256): the
ctx.Done case returns (main.go:229-230); the tick case continues. -/
def healthLoopCtl : HCEvent → LoopCtl
  | HCEvent.ctxDone => LoopCtl.ret
  | HCEvent.tick => LoopCtl.cont

/-- HTTP statuses used by the admin handler (main.go:181-201). -/
inductive HTTPStatus where
  | ok
  | unauthorized
  | internalServerError
  | badRequest
deriving DecidableEq, Repr

/-- The admin HTTP handler (main.go:182-201). The Authorization header is
compared with the configured token first (main.go:184-187); only then is the
body read (main.go:189-193, a read failure modelled by Except.error) and
parsed by json.Unmarshal, abstracted as the parse oracle (main.go:194-198).
Returns the HTTP status and the value, if any, sent on the destination
update channel (main.go:200). -/
def handleAdmin (token : String) (parse : String → Option (List destination))
    (auth : String) (bodyRead : Except String String) :
    HTTPStatus × Option (List destination) :=
  if auth ≠ token then (HTTPStatus.unauthorized, none)
  else
    match bodyRead with
    | Except.error _ => (HTTPStatus.internalServerError, none)
    | Except.ok body =>
      match parse body with
      | none => (HTTPStatus.badRequest, none)
      | some dests => (HTTPStatus.ok, some dests)

/-- slog.LevelDebug as an integer (log/slog). -/
def levelDebug : Int := -4

/-- slog.LevelInfo as an integer (log/slog). -/
def levelInfo : Int := 0

/-- slog.LevelWarn as an integer (log/slog). -/
def levelWarn : Int := 4

/-- slog.LevelError as an integer (log/slog). -/
def levelError : Int := 8

/-- toLevelDebug (main.go:287-300): the switch over the configured log-level
string, defaulting to LevelInfo. -/
def toLevelDebug (lvl : String) : Int :=
  if lvl = "debug" then levelDebug
  else if lvl = "info" then levelInfo
  else if lvl = "warn" then levelWarn
  else if lvl = "error" then levelError
  else levelInfo

/-- The pass criterion of the health probe stated over the abstract exchange
outcome: a destination passes exactly when the exchange neither fails with a
transport error nor returns a reply with zero answer records. -/
def passesProbe (ex : String → String → ExchangeResult) (domain : String)
    (d : destination) : Bool :=
  match ex domain d.address with
  | ExchangeResult.err _ => false
  | ExchangeResult.reply n => n != 0

theorem checkDNS_none_iff (ex : String → String → ExchangeResult)
    (domain : String) (t : Int) (d : destination) :
    checkDNS ex domain t d = none ↔ passesProbe ex domain d = true := by
  unfold checkDNS passesProbe
  cases hx : ex domain d.address with
  | err e => simp
  | reply n =>
    by_cases hn : n = 0 <;> simp [hn]

theorem healthyOf_eq_filter (ex : String → String → ExchangeResult)
    (domain : String) (dsts : List destination) :
    healthyOf ex domain dsts = dsts.filter (passesProbe ex domain) := by
  induction dsts with
  | nil => rfl
  | cons d rest ih =>
    unfold healthyOf
    cases hc : checkDNS ex domain probeTimeout d with
    | some e =>
      have hp : passesProbe ex domain d = false := by
        rcases hpb : passesProbe ex domain d with _ | _
        · rfl
        · exact absurd ((checkDNS_none_iff ex domain probeTimeout d).mpr hpb)
            (by simp [hc])
      simp [List.filter, hp, ih]
    | none =>
      have hp : passesProbe ex domain d = true :=
        (checkDNS_none_iff ex domain probeTimeout d).mp hc
      simp [List.filter, hp, ih]

theorem optsDestinations_updateOpts (ps : List destination) :
    optsDestinations (updateOpts ps) = ps := by
  induction ps with
  | nil => rfl
  | cons d rest ih => simp [updateOpts, optsDestinations] at ih ⊢; exact ih

theorem healthyOf_nil_of_all_fail (ex : String → String → ExchangeResult)
    (domain : String) (dsts : List destination)
    (h : ∀ d ∈ dsts, (checkDNS ex domain probeTimeout d).isSome = true) :
    healthyOf ex domain dsts = [] := by
  induction dsts with
  | nil => rfl
  | cons d rest ih =>
    unfold healthyOf
    cases hc : checkDNS ex domain probeTimeout d with
    | some e => exact ih (fun x hx => h x (List.mem_cons_of_mem d hx))
    | none =>
      have := h d (List.mem_cons_self d rest)
      rw [hc] at this
      simp at this

/-- C1. The code violates the claim: a health-check tick probes
r.destinations (main.go:233), which an admin proposal never updates
(main.go:160-175 writes only the forwarder), so after an admin proposal
replaces the committed set with a new destination, the next tick still
probes the initial static set, and its submission overwrites the admin set
with a filtered copy of the stale one. Concretely: static set is a alone,
the admin proposes b alone, every probe succeeds; the next tick probes a
(not the committed b) and re-commits a. -/
theorem c1_stale_probe_set :
    probedOnTick (applyAdmin ⟨[⟨"a", "10.0.0.1:53"⟩], [⟨"a", "10.0.0.1:53"⟩]⟩
        [⟨"b", "10.0.0.2:53"⟩]) = [⟨"a", "10.0.0.1:53"⟩] ∧
    probedOnTick (applyAdmin ⟨[⟨"a", "10.0.0.1:53"⟩], [⟨"a", "10.0.0.1:53"⟩]⟩
        [⟨"b", "10.0.0.2:53"⟩]) ≠
      (applyAdmin ⟨[⟨"a", "10.0.0.1:53"⟩], [⟨"a", "10.0.0.1:53"⟩]⟩
        [⟨"b", "10.0.0.2:53"⟩]).committed ∧
    (applyHealthTick "google.com." (fun _ _ => ExchangeResult.reply 1)
        (applyAdmin ⟨[⟨"a", "10.0.0.1:53"⟩], [⟨"a", "10.0.0.1:53"⟩]⟩
          [⟨"b", "10.0.0.2:53"⟩])).committed = [⟨"a", "10.0.0.1:53"⟩] := by
  decide

/-- C2 counterexample. The claim says an admin-proposal entry with an empty
name is skipped; in the code the admin path (main.go:162-169) builds a
WithDestination option for every entry with no validation, so the malformed
entry is applied to the forwarder together with the well-formed one. -/
theorem c2_admin_no_skip :
    optsDestinations (updateOpts [⟨"", "10.0.0.1:53"⟩, ⟨"b", "10.0.0.2:53"⟩])
      = [⟨"", "10.0.0.1:53"⟩, ⟨"b", "10.0.0.2:53"⟩] ∧
    (⟨"", "10.0.0.1:53"⟩ : destination) ∈
      optsDestinations (updateOpts [⟨"", "10.0.0.1:53"⟩, ⟨"b", "10.0.0.2:53"⟩]) := by
  decide

/-- C2 amended. Per-entry skipping of empty-name/empty-address entries (with
one logged warning each) happens only when the static configuration list is
loaded at startup, where the remaining well-formed entries are all kept in
order; an admin-pushed proposal is applied to the forwarder entry for entry
with no per-entry validation. -/
theorem c2_validation_placement :
    (∀ ps : List destination, optsDestinations (updateOpts ps) = ps) ∧
    (∀ es : List staticEntry,
      (loadStatic es).1 =
        (es.filter (fun e => !(e.name == "" || e.address == ""))).map
          (fun e => destination.mk e.name e.address) ∧
      (loadStatic es).2 =
        (es.filter (fun e => e.name == "" || e.address == "")).length) := by
  refine ⟨optsDestinations_updateOpts, ?_⟩
  intro es
  induction es with
  | nil => exact ⟨rfl, rfl⟩
  | cons e rest ih =>
    cases hb : (e.name == "" || e.address == "") with
    | true => simp [loadStatic, hb, List.filter, ih.1, ih.2]
    | false => simp [loadStatic, hb, List.filter, ih.1, ih.2]

/-- C3. The code violates the claim for the proposal-intake loop: the
ctx.Done case of Run's select (main.go:159) has an empty body and no return
statement, so on cancellation the loop continues iterating; only
healthCheck's loop returns on cancellation (main.go:229-230). -/
theorem c3_cancellation :
    runLoopCtl RunEvent.ctxDone = LoopCtl.cont ∧
    healthLoopCtl HCEvent.ctxDone = LoopCtl.ret := by
  decide

/-- C4. The 15-second timeout context created at main.go:262 is never passed
to client.Exchange (main.go:275), so it cannot bound the exchange: the
outcome of checkDNS is the same for every value of the timeout, in
particular for a zero deadline. -/
theorem c4_timeout_inert (ex : String → String → ExchangeResult)
    (domain : String) (d : destination) (t1 t2 : Int) :
    checkDNS ex domain t1 d = checkDNS ex domain t2 d := rfl

/-- C5. A tick on which every probed destination fails its checkDNS probe
still calls f.Update (main.go:250 is unconditional), carrying the empty
destination list; the committed set becomes empty rather than being
retained. -/
theorem c5_empty_update (ex : String → String → ExchangeResult)
    (domain : String) (s : RunnerState)
    (h : ∀ d ∈ s.destinations, (checkDNS ex domain probeTimeout d).isSome = true) :
    tickSubmission ex domain s.destinations = some [] ∧
    (applyHealthTick domain ex s).committed = [] := by
  have hz := healthyOf_nil_of_all_fail ex domain s.destinations h
  exact ⟨by rw [tickSubmission, hz], by rw [applyHealthTick]; simpa using hz⟩

/-- C5 witness: one destination, a probe that always fails with a transport
error; the tick submits an empty update and commits the empty set. -/
theorem c5_empty_update_witness :
    tickSubmission (fun _ _ => ExchangeResult.err "connection refused")
        "google.com." [⟨"a", "10.0.0.1:53"⟩] = some [] ∧
    (applyHealthTick "google.com."
        (fun _ _ => ExchangeResult.err "connection refused")
        ⟨[⟨"a", "10.0.0.1:53"⟩], [⟨"a", "10.0.0.1:53"⟩]⟩).committed = [] :=
  c5_empty_update (fun _ _ => ExchangeResult.err "connection refused")
    "google.com." ⟨[⟨"a", "10.0.0.1:53"⟩], [⟨"a", "10.0.0.1:53"⟩]⟩ (by decide)

/-- C6. The healthy list of a tick is exactly the probed list filtered by
the pass criterion (kept iff the exchange is neither a transport error nor a
zero-answer reply), so every surviving destination keeps its name and
address and the original relative order, and in particular the healthy list
is a sublist of the probed one. -/
theorem c6_filter_criterion (ex : String → String → ExchangeResult)
    (domain : String) (dsts : List destination) :
    healthyOf ex domain dsts = dsts.filter (passesProbe ex domain) ∧
    List.Sublist (healthyOf ex domain dsts) dsts := by
  refine ⟨healthyOf_eq_filter ex domain dsts, ?_⟩
  rw [healthyOf_eq_filter ex domain dsts]
  exact List.filter_sublist dsts

/-- C7 counterexample. Two configurations differing in every field produce
the same forwarder timeout of 30 seconds: the WithTimeout option at
main.go:102 is the literal 30 * time.Second, and the config struct
(main.go:26-45) has no idle-timeout field the claim could be a function
of. -/
theorem c7_timeout_constant :
    (⟨"debug", 53, [], 8080, "t1", 60000000000, "google.com."⟩ : Config) ≠
      (⟨"error", 5353, [⟨"a", "1.1.1.1:53"⟩], 9090, "t2", 0, "example.com."⟩ : Config) ∧
    firstTimeout (runOpts ⟨"debug", 53, [], 8080, "t1", 60000000000, "google.com."⟩ [])
      = some (30 * 1000000000) ∧
    firstTimeout (runOpts ⟨"error", 5353, [⟨"a", "1.1.1.1:53"⟩], 9090, "t2", 0,
        "example.com."⟩ [⟨"a", "1.1.1.1:53"⟩])
      = some (30 * 1000000000) := by
  decide

/-- C7 amended. The idle timeout passed to the forwarder is the constant
30 seconds for every configuration and every destination list: it is not
supplied by the configuration provider. -/
theorem c7_timeout_is_thirty (cfg : Config) (dests : List destination) :
    firstTimeout (runOpts cfg dests) = some (30 * 1000000000) := rfl

/-- C8. A request whose Authorization header differs from the configured
admin token is answered 401 Unauthorized with nothing sent on the
destination-update channel, whatever the body read outcome and however the
body would parse: an unauthorized request can never change the destination
set. -/
theorem c8_unauthorized (token : String)
    (parse : String → Option (List destination)) (auth : String)
    (bodyRead : Except String String) (h : auth ≠ token) :
    handleAdmin token parse auth bodyRead = (HTTPStatus.unauthorized, none) := by
  unfold handleAdmin
  rw [if_pos h]

/-- C8 witness: a concrete wrong token is rejected with 401 and no channel
send. -/
theorem c8_unauthorized_witness :
    handleAdmin "s3cret" (fun _ => none) "wrong" (Except.ok "[]")
      = (HTTPStatus.unauthorized, none) :=
  c8_unauthorized "s3cret" (fun _ => none) "wrong" (Except.ok "[]") (by decide)

/-- C9. With a non-positive health-check period the guard at main.go:148 is
false, so no health-check goroutine is started; along any event trace
containing no health tick, the committed destination set is either the
initial one or the payload of one of the admin proposals — only admin
proposals change it. -/
theorem c9_no_probing (cfg : Config) (domain : String) (s : RunnerState)
    (evs : List Event) (hp : cfg.healthCheckPeriod ≤ 0)
    (hev : ∀ e ∈ evs, isTick e = false) :
    healthCheckEnabled cfg = false ∧
    ((runTrace domain s evs).committed = s.committed ∨
      (runTrace domain s evs).committed ∈ proposalsOf evs) := by
  constructor
  · unfold healthCheckEnabled
    simp only [decide_eq_false_iff_not]
    omega
  · induction evs generalizing s with
    | nil => exact Or.inl rfl
    | cons e rest ih =>
      cases e with
      | adminProposal ps =>
        have hr := ih (applyAdmin s ps)
          (fun x hx => hev x (List.mem_cons_of_mem _ hx))
        rcases hr with hsame | hmem
        · right
          rw [runTrace] at hsame ⊢
          simp only [List.foldl_cons, stepEvent] at hsame ⊢
          rw [hsame]
          have hc : (applyAdmin s ps).committed = ps := by
            simp only [applyAdmin]
            exact optsDestinations_updateOpts ps
          rw [hc]
          exact List.mem_cons_self _ _
        · right
          rw [runTrace] at hmem ⊢
          simp only [List.foldl_cons, stepEvent] at hmem ⊢
          exact List.mem_cons_of_mem _ hmem
      | healthTick ex =>
        have := hev (Event.healthTick ex) (List.mem_cons_self _ _)
        simp [isTick] at this
      | ctxDone =>
        have hr := ih s (fun x hx => hev x (List.mem_cons_of_mem _ hx))
        rw [runTrace] at hr ⊢
        simpa only [List.foldl_cons, stepEvent] using hr

/-- C9 witness: period zero, one admin proposal, no ticks; the loop is not
started and the committed set is the proposal's payload. -/
theorem c9_no_probing_witness :
    healthCheckEnabled ⟨"info", 53, [], 8080, "t", 0, "google.com."⟩ = false ∧
    ((runTrace "google.com." ⟨[], []⟩
        [Event.adminProposal [⟨"b", "10.0.0.2:53"⟩]]).committed =
      (RunnerState.mk [] []).committed ∨
      (runTrace "google.com." ⟨[], []⟩
        [Event.adminProposal [⟨"b", "10.0.0.2:53"⟩]]).committed ∈
        proposalsOf [Event.adminProposal [⟨"b", "10.0.0.2:53"⟩]]) :=
  c9_no_probing ⟨"info", 53, [], 8080, "t", 0, "google.com."⟩ "google.com."
    ⟨[], []⟩ [Event.adminProposal [⟨"b", "10.0.0.2:53"⟩]] (by decide)
    (by intro e he; simp at he; subst he; rfl)

/-- C10. toLevelDebug maps the four recognised strings to the matching slog
level and every other string to LevelInfo. -/
theorem c10_level_mapping :
    toLevelDebug "debug" = levelDebug ∧ toLevelDebug "info" = levelInfo ∧
    toLevelDebug "warn" = levelWarn ∧ toLevelDebug "error" = levelError ∧
    ∀ s : String, s ∉ (["debug", "info", "warn", "error"] : List String) →
      toLevelDebug s = levelInfo := by
  refine ⟨rfl, rfl, rfl, rfl, ?_⟩
  intro s hs
  simp only [List.mem_cons, List.mem_singleton, not_or] at hs
  obtain ⟨h1, h2, h3, h4, _⟩ := hs
  unfold toLevelDebug
  rw [if_neg h1, if_neg h2, if_neg h3, if_neg h4]

/-- C10 witness: an unrecognised string maps to LevelInfo. -/
theorem c10_level_mapping_witness :
    toLevelDebug "verbose" = levelInfo :=
  c10_level_mapping.2.2.2.2 "verbose" (by decide)

end DnsProxy
